import Mathlib

/-!
Verification of the download admission and size-remediation pipeline of
`bot.py` (a Telegram bot that fetches videos from X/Twitter links).

The Python source is shallowly embedded: pure fragments become Lean
functions, the stateful handler becomes a function threading an explicit
disk state (a list of `(path, size)` entries) and recording the sequence of
file removals, and the external collaborators (the yt-dlp extraction
backend, the ffmpeg encoding backend, the Telegram transport) are modelled
by explicit outcome parameters, since only their observable effects on the
handler's control flow matter.

Time is modelled by `ℚ` (Python `datetime` / `time.time()` values carry
microsecond precision; exact rational arithmetic is faithful to the
`timedelta` arithmetic the code performs, and `int(...)` truncation of a
positive float is `Int.floor`).
-/

/-! ## Rate limiter (`RateLimiter.is_allowed`, bot.py lines 64-87)

The per-identity state is the list of recorded request timestamps (the
`defaultdict` entry for that identity, initially `[]`).  `is_allowed`
returns the `(allowed, wait_seconds)` pair together with the new stored
state.  Python's `int((wait_until - now).total_seconds())` truncates
toward zero; in the branch where it is evaluated the value is positive
(the oldest surviving timestamp satisfies `now - oldest < window`), and
for non-positive values `max 1 _` makes truncation and floor agree, so
`Int.floor` is a faithful model. -/

def is_allowed (st : List ℚ) (now : ℚ) (maxRequests : ℕ) (window : ℚ) :
    Bool × Option ℤ × List ℚ :=
  let pruned := st.filter (fun t => now - t < window)
  if maxRequests ≤ pruned.length then
    -- Python: oldest_request = min(self.requests[user_id]); the list is
    -- nonempty whenever max_requests > 0, so the default is never used then.
    let oldest := pruned.min?.getD now
    (false, some (max 1 ⌊oldest + window - now⌋), pruned)
  else
    (true, none, pruned ++ [now])

/-- Running a sequence of admission checks for one identity: each element of
`times` is the `datetime.now()` of one call, processed in order against the
evolving stored state. -/
def runChecks (maxRequests : ℕ) (window : ℚ) : List ℚ → List ℚ →
    List (Bool × Option ℤ) × List ℚ
  | [], st => ([], st)
  | t :: ts, st =>
    let r := is_allowed st t maxRequests window
    let rest := runChecks maxRequests window ts r.2.2
    ((r.1, r.2.1) :: rest.1, rest.2)

example : is_allowed [] 0 5 60 = (true, none, [0]) := by
  norm_num [is_allowed]
example : is_allowed [0] (1/2) 1 60 = (false, some 59, [0]) := by
  norm_num [is_allowed, List.filter]

lemma length_filter_lt_of_mem {α} (p : α → Bool) :
    ∀ (l : List α) (a : α), a ∈ l → p a = false →
      (l.filter p).length < l.length := by
  intro l
  induction l with
  | nil => intro a ha _; cases ha
  | cons b t ih =>
    intro a ha hpa
    rcases List.mem_cons.mp ha with rfl | hat
    · rw [List.filter_cons, if_neg (by simp [hpa])]
      exact Nat.lt_succ_of_le (List.length_filter_le p t)
    · rw [List.filter_cons]
      by_cases hb : p b = true
      · rw [if_pos hb]
        have := ih a hat hpa
        simp only [List.length_cons]
        omega
      · rw [if_neg hb]
        exact Nat.lt_succ_of_lt (ih a hat hpa)

/-- Pruning removes nothing when every stored timestamp is within the window
of the current check. -/
lemma filter_window_eq_self (st : List ℚ) (now w : ℚ)
    (h : ∀ x ∈ st, now - x < w) :
    st.filter (fun t => decide (now - t < w)) = st :=
  List.filter_eq_self.mpr (fun a ha => decide_eq_true (h a ha))

/-- Invariant of a run of admission checks: if `done` is the list of
previously processed check times (the stored state is its first `quota`
entries) and all times lie in the span `[t₁, t₁ + w)`, then the run allows
exactly the checks whose global index is below the quota, and the final
stored state is the first `quota` check times. -/
lemma runChecks_inv (q : ℕ) (w t₁ : ℚ) :
    ∀ (rest done : List ℚ),
      (∀ x ∈ done, t₁ ≤ x) →
      (∀ x ∈ rest, t₁ ≤ x ∧ x - t₁ < w) →
      (runChecks q w rest (done.take q)).1.map Prod.fst =
        (List.range' done.length rest.length).map (fun i => decide (i < q)) ∧
      (runChecks q w rest (done.take q)).2 = (done ++ rest).take q := by
  intro rest
  induction rest with
  | nil =>
    intro done _ _
    simp [runChecks]
  | cons t ts ih =>
    intro done hdone hrest
    have ht₁ : t₁ ≤ t := (hrest t (List.mem_cons_self t ts)).1
    have htw : t - t₁ < w := (hrest t (List.mem_cons_self t ts)).2
    have hprune :
        (done.take q).filter (fun s => decide (t - s < w)) = done.take q := by
      apply filter_window_eq_self
      intro x hx
      have hx' : x ∈ done := List.take_subset q done hx
      have := hdone x hx'
      linarith
    have hdone' : ∀ x ∈ done ++ [t], t₁ ≤ x := by
      intro x hx
      rcases List.mem_append.mp hx with hx | hx
      · exact hdone x hx
      · rcases List.mem_singleton.mp hx with rfl; exact ht₁
    have hrest' : ∀ x ∈ ts, t₁ ≤ x ∧ x - t₁ < w :=
      fun x hx => hrest x (List.mem_cons_of_mem t hx)
    by_cases hlen : q ≤ done.length
    · -- at/over quota: denied, state unchanged (the pruned list is stored)
      have hql : q ≤ (done.take q).length := by
        simp only [List.length_take]; omega
      have hstate : List.take q done = List.take q (done ++ [t]) := by
        rw [List.take_append_eq_append_take]
        have h0 : q - done.length = 0 := by omega
        simp [h0]
      have hrec := ih (done ++ [t]) hdone' hrest'
      have hnlt : ¬ done.length < q := by omega
      constructor
      · simp only [runChecks, is_allowed, hprune, if_pos hql, List.map_cons]
        rw [hstate, hrec.1]
        simp [List.range'_succ, hnlt]
      · simp only [runChecks, is_allowed, hprune, if_pos hql]
        rw [hstate, hrec.2]
        simp [List.append_assoc]
    · -- under quota: allowed, current time appended to the stored state
      have hlt : done.length < q := by omega
      have htake : List.take q done = done := List.take_of_length_le (by omega)
      have hql : ¬ q ≤ (done.take q).length := by
        simp only [List.length_take]; omega
      have hstate : (done ++ [t]).take q = done ++ [t] :=
        List.take_of_length_le (by simp only [List.length_append]; simp; omega)
      have hrec := ih (done ++ [t]) hdone' hrest'
      constructor
      · simp only [runChecks, is_allowed, hprune, if_neg hql, List.map_cons]
        rw [htake, ← hstate, hrec.1]
        simp [List.range'_succ, hlt]
      · simp only [runChecks, is_allowed, hprune, if_neg hql]
        rw [htake, ← hstate, hrec.2]
        simp [List.append_assoc]

/-- C2: within one window span, the first `quota` checks are allowed and the
rest denied (never recorded); once the window has elapsed since the first
check, a subsequent check is allowed again. -/
theorem rateLimiter_window_quota (q : ℕ) (w t₁ : ℚ) (ts : List ℚ)
    (hq : 0 < q) (hhead : ts.head? = some t₁)
    (hspan : ∀ x ∈ ts, t₁ ≤ x ∧ x - t₁ < w) :
    (runChecks q w ts []).1.map Prod.fst =
      (List.range' 0 ts.length).map (fun i => decide (i < q)) ∧
    (runChecks q w ts []).2 = ts.take q ∧
    (∀ t', t₁ + w ≤ t' → (is_allowed (ts.take q) t' q w).1 = true) := by
  have hinv := runChecks_inv q w t₁ ts [] (by intro x hx; cases hx) hspan
  simp only [List.take_nil, List.length_nil, List.nil_append] at hinv
  refine ⟨hinv.1, hinv.2, ?_⟩
  intro t' ht'
  -- the first check time is among the stored ones and falls out of the window
  obtain ⟨ts', rfl⟩ : ∃ ts', ts = t₁ :: ts' := by
    cases ts with
    | nil => simp at hhead
    | cons a l => simp at hhead; exact ⟨l, by rw [hhead]⟩
  have hmem : t₁ ∈ (t₁ :: ts').take q := by
    cases q with
    | zero => omega
    | succ n => simp [List.take_cons]
  have hfail : (fun s => decide (t' - s < w)) t₁ = false := by
    simp only [decide_eq_false_iff_not, not_lt]
    linarith
  have hlt : (((t₁ :: ts').take q).filter
      (fun s => decide (t' - s < w))).length < q := by
    calc (((t₁ :: ts').take q).filter (fun s => decide (t' - s < w))).length
        < ((t₁ :: ts').take q).length :=
          length_filter_lt_of_mem _ _ t₁ hmem hfail
      _ ≤ q := by
          have := List.length_take q (t₁ :: ts')
          omega
  simp only [is_allowed]
  rw [if_neg (by omega)]

/-- Witness for C2 at a concrete run: quota 2, window 60 s, three checks at
times 0, 1, 2 and a later check at time 60. -/
theorem rateLimiter_window_quota_witness :
    (runChecks 2 60 [0, 1, 2] []).1.map Prod.fst =
      (List.range' 0 3).map (fun i => decide (i < 2)) ∧
    (runChecks 2 60 [0, 1, 2] []).2 = [0, 1] ∧
    (∀ t', (0 : ℚ) + 60 ≤ t' → (is_allowed [0, 1] t' 2 60).1 = true) := by
  have h := rateLimiter_window_quota 2 60 0 [0, 1, 2] (by norm_num) rfl
    (by intro x hx; fin_cases hx <;> norm_num)
  simpa using h

/-- C3 amended: on a denied check the returned wait is
`max 1 ⌊window - (now - oldest_remaining)⌋` — the *truncation* of the
remaining time of the oldest surviving timestamp (Python's `int(...)` on a
positive float), not its ceiling — where `oldest_remaining` is the minimum
of the timestamps that survive pruning. -/
theorem rateLimiter_denied_wait (st : List ℚ) (now w : ℚ) (q : ℕ)
    (hq : 0 < q)
    (hd : q ≤ (st.filter (fun t => decide (now - t < w))).length) :
    ∃ o, o ∈ st.filter (fun t => decide (now - t < w)) ∧
      (∀ x ∈ st.filter (fun t => decide (now - t < w)), o ≤ x) ∧
      is_allowed st now q w =
        (false, some (max 1 ⌊w - (now - o)⌋),
          st.filter (fun t => decide (now - t < w))) := by
  set pruned := st.filter (fun t => decide (now - t < w)) with hp
  have hne : pruned ≠ [] := by
    intro h
    rw [h] at hd
    simp at hd
    omega
  obtain ⟨o, ho⟩ : ∃ o, pruned.min? = some o := by
    cases hmin : pruned.min? with
    | none => rw [List.min?_eq_none_iff] at hmin; exact absurd hmin hne
    | some o => exact ⟨o, rfl⟩
  refine ⟨o, List.min?_mem (fun a b => min_choice a b) ho, ?_, ?_⟩
  · intro x hx
    exact ((List.le_min?_iff (fun a b c => le_min_iff) ho).mp (le_refl o)) x hx
  · have harg : o + w - now = w - (now - o) := by ring
    simp only [is_allowed, ← hp, if_pos hd, ho, Option.getD_some, harg]

/-- Witness for the amended C3: two stored timestamps, quota 2, window 60 s,
check at time 30 — denied with wait `max 1 ⌊60 - (30 - 0)⌋ = 30`. -/
theorem rateLimiter_denied_wait_witness :
    (0 : ℕ) < 2 ∧
    (∃ o, o ∈ ([0, 10] : List ℚ).filter (fun t => decide ((30 : ℚ) - t < 60)) ∧
      (∀ x ∈ ([0, 10] : List ℚ).filter (fun t => decide ((30 : ℚ) - t < 60)),
        o ≤ x) ∧
      is_allowed [0, 10] 30 2 60 =
        (false, some (max 1 ⌊(60 : ℚ) - (30 - o)⌋),
          ([0, 10] : List ℚ).filter (fun t => decide ((30 : ℚ) - t < 60)))) :=
  ⟨by norm_num,
    rateLimiter_denied_wait [0, 10] 30 60 2 (by norm_num)
      (by norm_num [List.filter])⟩

/-- C3 counterexample: with one stored timestamp at time 0, window 60 s and a
denied check at time 1/2, the code returns 59 seconds, whereas the claimed
formula `ceil(window - (now - oldest))`, floored at 1, gives 60. -/
theorem rateLimiter_wait_not_ceil :
    (is_allowed [0] (1/2) 1 60).2.1 = some 59 ∧
    max 1 ⌈(60 : ℚ) - (1/2 - 0)⌉ = (60 : ℤ) := by
  constructor
  · norm_num [is_allowed, List.filter]
  · have : ⌈(119 : ℚ) / 2⌉ = (60 : ℤ) := by
      rw [Int.ceil_eq_iff]; norm_num
    norm_num [this]

/-! ## URL classifier (`is_twitter_url`, bot.py lines 100-107)

The Python function returns `True` iff one of three regexes matches a
*prefix* of the input (`re.match` anchors only at the start) under
`re.IGNORECASE`:

  `https?://(www\.)?(twitter\.com|x\.com)/\w+/status/\d+`
  `https?://(www\.)?t\.co/\w+`
  `https?://(www\.)?(twitter\.com|x\.com)/i/web/status/\d+`

The embedding lowercases the input and matches lowercase literals, which is
equivalent for these patterns (their literals are ASCII).  `\w+` followed by
the literal `/` can only match the maximal run of word characters (a word
character is never `/`), so the matcher consumes the maximal run; `(www\.)?`
is matched with full backtracking (try with the prefix, else without).
`\w`/`\d` are modelled over ASCII (Python's are Unicode-aware; the
difference does not affect any statement proved here, whose inputs are
ASCII). -/

def isWordChar (c : Char) : Bool := c.isAlphanum || c = '_'

/-- Consume a literal from the front of the character list. -/
def stripLit : List Char → List Char → Option (List Char)
  | [], cs => some cs
  | _ :: _, [] => none
  | p :: ps, c :: cs => if c = p then stripLit ps cs else none

/-- Consume `\w+` (one or more word characters, maximal run). -/
def stripWord1 : List Char → Option (List Char)
  | [] => none
  | c :: cs => if isWordChar c then some (cs.dropWhile isWordChar) else none

/-- Test for `\d+` as the final pattern element of a prefix match: at least
one digit must follow. -/
def headDigit : List Char → Bool
  | [] => false
  | c :: _ => c.isDigit

/-- Test for `\w+` as the final pattern element of a prefix match. -/
def headWord : List Char → Bool
  | [] => false
  | c :: _ => isWordChar c

/-- Consume `https?://`. -/
def schemeTail (cs : List Char) : Option (List Char) :=
  match stripLit "https://".data cs with
  | some r => some r
  | none => stripLit "http://".data cs

/-- Match `(www\.)?` with backtracking into the continuation `k`. -/
def optWWW (k : List Char → Bool) (cs : List Char) : Bool :=
  (match stripLit "www.".data cs with
   | some r => k r
   | none => false) || k cs

/-- Consume `(twitter\.com|x\.com)`. -/
def hostTail (cs : List Char) : Option (List Char) :=
  match stripLit "twitter.com".data cs with
  | some r => some r
  | none => stripLit "x.com".data cs

/-- Match `/\w+/status/\d+`. -/
def statusPath (cs : List Char) : Bool :=
  match stripLit ['/'] cs with
  | none => false
  | some r =>
    match stripWord1 r with
    | none => false
    | some r2 =>
      match stripLit "/status/".data r2 with
      | none => false
      | some r3 => headDigit r3

/-- Match `/i/web/status/\d+`. -/
def iWebPath (cs : List Char) : Bool :=
  match stripLit "/i/web/status/".data cs with
  | none => false
  | some r => headDigit r

/-- Match `(twitter\.com|x\.com)` followed by `/\w+/status/\d+` (the
continuation of the first pattern after the optional `www.`). -/
def hostPath1 (r2 : List Char) : Bool :=
  match hostTail r2 with
  | none => false
  | some r3 => statusPath r3

/-- Match `t\.co/\w+` (the continuation of the second pattern after the
optional `www.`). -/
def tcoTail (r2 : List Char) : Bool :=
  match stripLit "t.co/".data r2 with
  | none => false
  | some r3 => headWord r3

/-- Match `(twitter\.com|x\.com)` followed by `/i/web/status/\d+` (the
continuation of the third pattern after the optional `www.`). -/
def hostPath3 (r2 : List Char) : Bool :=
  match hostTail r2 with
  | none => false
  | some r3 => iWebPath r3

/-- First pattern: `https?://(www\.)?(twitter\.com|x\.com)/\w+/status/\d+`. -/
def twitterPat1 (cs : List Char) : Bool :=
  match schemeTail cs with
  | none => false
  | some r => optWWW hostPath1 r

/-- Second pattern: `https?://(www\.)?t\.co/\w+`. -/
def twitterPat2 (cs : List Char) : Bool :=
  match schemeTail cs with
  | none => false
  | some r => optWWW tcoTail r

/-- Third pattern: `https?://(www\.)?(twitter\.com|x\.com)/i/web/status/\d+`. -/
def twitterPat3 (cs : List Char) : Bool :=
  match schemeTail cs with
  | none => false
  | some r => optWWW hostPath3 r

/-- The URL classifier of bot.py: `any(re.match(p, url, re.IGNORECASE) for p
in patterns)`. -/
def is_twitter_url (url : String) : Bool :=
  let cs := url.data.map Char.toLower
  twitterPat1 cs || twitterPat2 cs || twitterPat3 cs

example : is_twitter_url "https://x.com/user/status/123" = true := by decide
example : is_twitter_url "HTTPS://WWW.TWITTER.COM/User/status/99" = true := by
  decide
example : is_twitter_url "https://t.co/abC9" = true := by decide
example : is_twitter_url "https://x.com/i/web/status/5" = true := by decide
example : is_twitter_url "ftp://x.com/user/status/123" = false := by decide
example : is_twitter_url "not a url" = false := by decide
example : is_twitter_url "https://example.com/user/status/123" = false := by
  decide

lemma stripLit_append (p : List Char) : ∀ rest, stripLit p (p ++ rest) = some rest := by
  induction p with
  | nil => intro rest; rfl
  | cons c t ih => intro rest; simp [stripLit, ih]

/-- One entry of the `formats` list reported by the extraction backend; only
the `acodec` field is inspected by the code (`f.get("acodec")` is `None` when
the key is absent). -/
structure FormatInfo where
  acodec : Option String
deriving DecidableEq

/-- The metadata dictionary returned by the extraction backend, restricted to
the fields the code reads.  `duration` is `none` when absent or `null`. -/
structure VideoInfo where
  formats : List FormatInfo
  duration : Option ℚ
deriving DecidableEq

/-- bot.py `detect_gif`: a clip is a GIF iff no format has an audio codec
(`f.get("acodec") not in (None, "none")` for no `f`) and the duration —
with `None` coerced to 0 by `info.get("duration") or 0` — is at most 15 s. -/
def detect_gif (info : VideoInfo) : Bool :=
  let has_audio := info.formats.any
    (fun f => decide (f.acodec ≠ none ∧ f.acodec ≠ some "none"))
  !has_audio && decide (info.duration.getD 0 ≤ 15)

/-! ## Filesystem model

The download directory is modelled as a list of `(path, size-in-bytes)`
entries; `os.path.exists` is membership by path, `os.remove` filters the
path out. -/

abbrev Disk := List (String × ℕ)

def diskHas (d : Disk) (p : String) : Bool := d.any (fun e => decide (e.1 = p))

def diskRemove (d : Disk) (p : String) : Disk :=
  d.filter (fun e => decide (e.1 ≠ p))

/-- Model of Python `str.replace` scanning: replace each non-overlapping
occurrence of `pat` left to right.  The fuel argument only serves structural
termination; starting it at the input length it is never exhausted when
`pat` is nonempty, because each step strictly shortens the remaining
input. -/
def pyReplaceGo (pat rep : List Char) : ℕ → List Char → List Char
  | 0, cs => cs
  | _ + 1, [] => []
  | n + 1, c :: cs =>
    match stripLit pat (c :: cs) with
    | some rest => rep ++ pyReplaceGo pat rep n rest
    | none => c :: pyReplaceGo pat rep n cs

/-- Python `str.replace(pat, rep)` (the empty-pattern case, which Python
treats specially, never arises in the code: the pattern is `".mp4"`). -/
def pyReplace (s pat rep : String) : String :=
  if pat.data.isEmpty then s
  else ⟨pyReplaceGo pat.data rep.data s.data.length s.data⟩

example :
    pyReplace "downloads/video_42_100.mp4" ".mp4" "_compressed.mp4"
      = "downloads/video_42_100_compressed.mp4" := by decide

/-- bot.py line 249: `output_path = input_path.replace(".mp4", "_compressed.mp4")`. -/
def compressedPath (p : String) : String := pyReplace p ".mp4" "_compressed.mp4"

/-- bot.py line 217: `output_path = input_path.replace(".mp4", "_remux.mp4")`. -/
def remuxPath (p : String) : String := pyReplace p ".mp4" "_remux.mp4"

/-! ## Download output template (`download_video`, bot.py lines 147-148)

`outtmpl = f"{DOWNLOAD_DIR}/video_{user_id}_{timestamp}.%(ext)s"` with
`timestamp = int(time.time())` — the wall-clock time truncated to whole
seconds (`time.time()` is positive, so `int` truncation is `Int.floor`). -/

def DOWNLOAD_DIR : String := "downloads"

def outtmpl (user_id : ℕ) (timestamp : ℤ) : String :=
  DOWNLOAD_DIR ++ "/video_" ++ toString user_id ++ "_" ++ toString timestamp
    ++ ".%(ext)s"

/-- The output template of a download started by `user_id` at wall-clock
time `t` (in seconds, sub-second precision). -/
def outtmplAt (user_id : ℕ) (t : ℚ) : String := outtmpl user_id ⌊t⌋

/-! ## Acquisition (`download_video`, bot.py lines 140-209)

The function makes at most two extraction attempts with the two fixed
format selectors below.  Each attempt is modelled by an `ExtractOutcome`:
whether `extract_info` raised, which files the backend wrote to disk, the
path `prepare_filename` reported, and the metadata.  The first attempt's
failures (including the `FileNotFoundError` raised when the reported path
is missing) are swallowed by `except Exception` and control falls through
to the second attempt; the second attempt's failures propagate.  No file is
ever deleted by `download_video`. -/

structure ExtractOutcome where
  raisesEx : Bool
  written : List (String × ℕ)
  prepared : String
  info : VideoInfo

/-- The two format selectors of bot.py (lines 156 and 191), in the order
they are attempted. -/
def downloadFormats : List String :=
  ["best[filesize<50M]/best[height<=720]/best", "bestvideo+bestaudio/best"]

/-- bot.py `download_video`: returns the updated disk and `some (filepath,
is_gif, info)` on success, `none` when the second attempt raises (the
exception propagates to the caller). -/
def download_video (b1 b2 : ExtractOutcome) (disk : Disk) :
    Disk × Option (String × Bool × VideoInfo) :=
  let d1 := b1.written ++ disk
  if !b1.raisesEx && diskHas d1 b1.prepared then
    (d1, some (b1.prepared, detect_gif b1.info, b1.info))
  else
    let d2 := b2.written ++ d1
    if b2.raisesEx then (d2, none)
    else if !(diskHas d2 b2.prepared) then (d2, none)
    else (d2, some (b2.prepared, detect_gif b2.info, b2.info))

/-- C5 counterexample: the first attempt writes `downloads/a.webm` but
reports path `downloads/a.mp4` (merge/extension mismatch), so the attempt is
rejected via `FileNotFoundError`; nothing is deleted, the second attempt
succeeds, and afterwards both the rejected first attempt's file and the
accepted file are on disk — and the selector ladder is the two fixed
selectors of the code, not a 1080p/720p/540p descending ladder. -/
theorem acquisition_ladder_counterexample :
    (download_video
      ⟨false, [("downloads/a.webm", 10)], "downloads/a.mp4", ⟨[], none⟩⟩
      ⟨false, [("downloads/b.mp4", 20)], "downloads/b.mp4", ⟨[], none⟩⟩
      []).2 = some ("downloads/b.mp4", true, ⟨[], none⟩) ∧
    diskHas (download_video
      ⟨false, [("downloads/a.webm", 10)], "downloads/a.mp4", ⟨[], none⟩⟩
      ⟨false, [("downloads/b.mp4", 20)], "downloads/b.mp4", ⟨[], none⟩⟩
      []).1 "downloads/a.webm" = true ∧
    diskHas (download_video
      ⟨false, [("downloads/a.webm", 10)], "downloads/a.mp4", ⟨[], none⟩⟩
      ⟨false, [("downloads/b.mp4", 20)], "downloads/b.mp4", ⟨[], none⟩⟩
      []).1 "downloads/b.mp4" = true ∧
    downloadFormats = ["best[filesize<50M]/best[height<=720]/best",
      "bestvideo+bestaudio/best"] := by
  refine ⟨?_, ?_, ?_, rfl⟩ <;> decide

/-- C5 amended: acquisition tries a fixed two-entry selector ladder — a
smart selector preferring a sub-50 MB file, then best quality — and never
deletes any file: every disk entry present before the call is still present
after it, so a rejected first attempt's files remain on disk while the
second attempt runs. -/
theorem acquisition_never_deletes (b1 b2 : ExtractOutcome) (disk : Disk) :
    (∀ e ∈ disk, e ∈ (download_video b1 b2 disk).1) ∧
    downloadFormats.length = 2 := by
  refine ⟨?_, rfl⟩
  intro e he
  simp only [download_video]
  split
  · simp [List.mem_append, he]
  · split
    · simp [List.mem_append, he]
    · split <;> simp [List.mem_append, he]

/-- Witness for the amended C5: a pre-existing file survives a run in which
the first attempt is rejected and the second succeeds. -/
theorem acquisition_never_deletes_witness :
    ("downloads/old.mp4", 1) ∈ (download_video
      ⟨false, [("downloads/a.webm", 10)], "downloads/a.mp4", ⟨[], none⟩⟩
      ⟨false, [("downloads/b.mp4", 20)], "downloads/b.mp4", ⟨[], none⟩⟩
      [("downloads/old.mp4", 1)]).1 ∧
    downloadFormats.length = 2 :=
  ⟨(acquisition_never_deletes _ _ _).1 ("downloads/old.mp4", 1) (by decide),
    (acquisition_never_deletes
      ⟨false, [], "p", ⟨[], none⟩⟩ ⟨false, [], "p", ⟨[], none⟩⟩ []).2⟩

/-- C6 counterexample: two downloads by the same identity starting at
distinct times within the same whole second (100 s and 100.5 s) get the
same output template — the path embeds no random or unique token. -/
theorem outtmpl_collision :
    outtmplAt 42 100 = outtmplAt 42 (201/2) ∧ (100 : ℚ) ≠ 201/2 := by
  constructor
  · have h1 : ⌊(100 : ℚ)⌋ = (100 : ℤ) := by norm_num
    have h2 : ⌊(201 : ℚ)/2⌋ = (100 : ℤ) := by
      rw [Int.floor_eq_iff]
      constructor <;> norm_num
    rw [outtmplAt, outtmplAt, h1, h2]
  · norm_num

/-- C6 amended: the output template depends only on the requester identity
and the start time truncated to whole seconds (no random/unique token, no
attempt index), so any two downloads of one identity within the same whole
second write to the same template. -/
theorem outtmpl_identity_second_only (u : ℕ) (t t' : ℚ) (h : ⌊t⌋ = ⌊t'⌋) :
    outtmplAt u t = outtmplAt u t' := by
  rw [outtmplAt, outtmplAt, h]

/-- Witness for the amended C6 at identity 7, times 100 and 100.75 s. -/
theorem outtmpl_identity_second_only_witness :
    ⌊(100 : ℚ)⌋ = ⌊(403 : ℚ)/4⌋ ∧ outtmplAt 7 100 = outtmplAt 7 (403/4) := by
  have h : ⌊(100 : ℚ)⌋ = ⌊(403 : ℚ)/4⌋ := by
    have h2 : ⌊(403 : ℚ)/4⌋ = (100 : ℤ) := by
      rw [Int.floor_eq_iff]
      constructor <;> norm_num
    rw [h2]
    norm_num
  exact ⟨h, outtmpl_identity_second_only 7 100 (403/4) h⟩

/-! ## Request handler (`handle_message`, bot.py lines 326-452)

One request is driven end-to-end.  The external effects are parameters:

* `dl` — the result of `download_video` as observed by the handler:
  `none` when it raised `yt_dlp.utils.DownloadError` (the handler replies
  with a download-error message and `filepath` stays `None`), or
  `some (path, info)` when it returned a file (which is then on disk;
  `dlSize` is its `os.path.getsize`).
* recompression (`recompress_video`, lines 244-279): `rcTimeout` — the
  ffmpeg call hit its 300 s timeout (`subprocess.TimeoutExpired`
  propagates); `rcWrites`/`rcSize` — whether ffmpeg left an output file at
  `input.replace(".mp4", "_compressed.mp4")` and its size; `rcRetOk` — the
  return code was 0.  A non-zero return code or a missing output raises
  `RuntimeError` (caught by the generic `except Exception`).
* remux (`remux_video`, lines 211-242): same fields; on a non-zero return
  code or missing output the function returns the input path unchanged
  (no exception).

The handler's branch structure (lines 364-410): recompress when the size
exceeds `MAX_FILE_SIZE` (re-checking afterwards and raising `ValueError` if
still too large), remux when it exceeds `MAX_FILE_SIZE * 0.9` (the model
compares `10 * size > 9 * maxFS` exactly; for the default
`MAX_FILE_SIZE = 52428800` the float comparison of the code agrees on all
integer sizes), deliver directly otherwise.  Delivery sends an animation
when `is_gif` and a video otherwise.  The `finally` block (lines 445-452)
removes the tracked `filepath` if it is set and still exists, swallowing
`OSError`. -/

/-- bot.py line 29: default `MAX_FILE_SIZE` (50 MiB). -/
def MAX_FILE_SIZE : ℕ := 50 * 1024 * 1024

inductive Outcome
  /-- Reply "please send a correct link" (line 336), no processing. -/
  | badUrl : Outcome
  /-- Reply "too many requests, wait n seconds" (line 347). -/
  | rateLimited (wait : ℤ) : Outcome
  /-- The file was sent (line 403-410): as animation iff `asAnimation`. -/
  | delivered (path : String) (size : ℕ) (asAnimation : Bool) : Outcome
  /-- `ValueError` "too big and could not compress" (lines 382-386, 430). -/
  | tooLarge : Outcome
  /-- `subprocess.TimeoutExpired` (line 434): "processing timeout". -/
  | timeoutMsg : Outcome
  /-- `yt_dlp.utils.DownloadError` (line 415): download-error reply. -/
  | dlFailed : Outcome
  /-- Generic `except Exception` (line 438): "internal error" reply. -/
  | internalError : Outcome
deriving DecidableEq

structure Scenario where
  dl : Option (String × VideoInfo)
  dlSize : ℕ
  rcTimeout : Bool
  rcWrites : Bool
  rcSize : ℕ
  rcRetOk : Bool
  rxTimeout : Bool
  rxWrites : Bool
  rxSize : ℕ
  rxRetOk : Bool

structure HandlerResult where
  outcome : Outcome
  disk : Disk
  /-- The paths passed to `os.remove`, in order. -/
  removed : List String
  /-- The final value of the `filepath` variable at the `finally` block. -/
  tracked : Option String
deriving DecidableEq

/-- The `finally` block of `handle_message`: `if filepath and
os.path.exists(filepath): os.remove(filepath)` with `OSError` swallowed —
removing an already-absent file is a no-op, never an error. -/
def safeCleanup (tracked : Option String) (disk : Disk) (removed : List String) :
    Disk × List String :=
  match tracked with
  | none => (disk, removed)
  | some p => if diskHas disk p then (diskRemove disk p, removed ++ [p])
              else (disk, removed)


/-- The disk contents seen after the recompression attempt: ffmpeg may or
may not have written the output file at `input.replace(".mp4",
"_compressed.mp4")`. -/
def rcDisk (path : String) (sc : Scenario) (disk₁ : Disk) : Disk :=
  if sc.rcWrites then (compressedPath path, sc.rcSize) :: disk₁ else disk₁

/-- The disk contents seen after the remux attempt. -/
def rxDisk (path : String) (sc : Scenario) (disk₁ : Disk) : Disk :=
  if sc.rxWrites then (remuxPath path, sc.rxSize) :: disk₁ else disk₁

/-- The path returned by `remux_video` (bot.py lines 237-242): the output on
success, the unchanged input when ffmpeg failed or wrote nothing. -/
def remuxResult (path : String) (sc : Scenario) (disk₁ : Disk) : String :=
  if sc.rxRetOk ∧ diskHas (rxDisk path sc disk₁) (remuxPath path) then
    remuxPath path
  else path

/-- The branch of `handle_message` for `file_size > MAX_FILE_SIZE`
(bot.py lines 368-386): recompress, delete the original, re-measure, raise
`ValueError` if still above the limit, else deliver.  A timeout propagates
as `subprocess.TimeoutExpired`; a non-zero return code or missing output
propagates as `RuntimeError` into `except Exception`; in both cases the
`finally` block cleans the tracked original. -/
def recompressFlow (maxFS : ℕ) (path : String) (isGif : Bool) (sc : Scenario)
    (disk₁ : Disk) : HandlerResult :=
  if sc.rcTimeout then
    ⟨.timeoutMsg, (safeCleanup (some path) (rcDisk path sc disk₁) []).1,
      (safeCleanup (some path) (rcDisk path sc disk₁) []).2, some path⟩
  else if ¬ sc.rcRetOk ∨ ¬ diskHas (rcDisk path sc disk₁) (compressedPath path) then
    ⟨.internalError, (safeCleanup (some path) (rcDisk path sc disk₁) []).1,
      (safeCleanup (some path) (rcDisk path sc disk₁) []).2, some path⟩
  else if sc.rcSize > maxFS then
    ⟨.tooLarge,
      (safeCleanup (some (compressedPath path))
        (diskRemove (rcDisk path sc disk₁) path) [path]).1,
      (safeCleanup (some (compressedPath path))
        (diskRemove (rcDisk path sc disk₁) path) [path]).2,
      some (compressedPath path)⟩
  else
    ⟨.delivered (compressedPath path) sc.rcSize isGif,
      (safeCleanup (some (compressedPath path))
        (diskRemove (rcDisk path sc disk₁) path) [path]).1,
      (safeCleanup (some (compressedPath path))
        (diskRemove (rcDisk path sc disk₁) path) [path]).2,
      some (compressedPath path)⟩

/-- The branch of `handle_message` for `MAX_FILE_SIZE * 0.9 < file_size ≤
MAX_FILE_SIZE` (bot.py lines 388-398): remux; on success delete the
original and deliver the remuxed file, on failure deliver the original; in
either case the re-measured size is never compared to the limit again. -/
def remuxFlow (path : String) (dlSize : ℕ) (isGif : Bool) (sc : Scenario)
    (disk₁ : Disk) : HandlerResult :=
  if sc.rxTimeout then
    ⟨.timeoutMsg, (safeCleanup (some path) (rxDisk path sc disk₁) []).1,
      (safeCleanup (some path) (rxDisk path sc disk₁) []).2, some path⟩
  else if remuxResult path sc disk₁ = path then
    ⟨.delivered path dlSize isGif,
      (safeCleanup (some path) (rxDisk path sc disk₁) []).1,
      (safeCleanup (some path) (rxDisk path sc disk₁) []).2, some path⟩
  else
    ⟨.delivered (remuxPath path) sc.rxSize isGif,
      (safeCleanup (some (remuxPath path))
        (diskRemove (rxDisk path sc disk₁) path) [path]).1,
      (safeCleanup (some (remuxPath path))
        (diskRemove (rxDisk path sc disk₁) path) [path]).2,
      some (remuxPath path)⟩

def handle_message (maxFS : ℕ) (url : String) (rlSt : List ℚ) (now : ℚ)
    (q : ℕ) (w : ℚ) (sc : Scenario) (disk₀ : Disk) : HandlerResult :=
  if ¬ is_twitter_url url then ⟨.badUrl, disk₀, [], none⟩
  else if ¬ (is_allowed rlSt now q w).1 then
    ⟨.rateLimited ((is_allowed rlSt now q w).2.1.getD 0), disk₀, [], none⟩
  else
    match sc.dl with
    | none => ⟨.dlFailed, disk₀, [], none⟩
    | some (path, info) =>
      if sc.dlSize > maxFS then
        recompressFlow maxFS path (detect_gif info) sc ((path, sc.dlSize) :: disk₀)
      else if 10 * sc.dlSize > 9 * maxFS then
        remuxFlow path sc.dlSize (detect_gif info) sc ((path, sc.dlSize) :: disk₀)
      else
        ⟨.delivered path sc.dlSize (detect_gif info),
          (safeCleanup (some path) ((path, sc.dlSize) :: disk₀) []).1,
          (safeCleanup (some path) ((path, sc.dlSize) :: disk₀) []).2,
          some path⟩

example :
    (handle_message MAX_FILE_SIZE "https://x.com/a/status/2" [] 0 5 60
      ⟨some ("downloads/video_42_100.mp4", ⟨[], none⟩), 52428800,
        false, false, 0, false, false, true, 52428801, true⟩ []) =
    ⟨.delivered "downloads/video_42_100_remux.mp4" 52428801 true,
      [], ["downloads/video_42_100.mp4", "downloads/video_42_100_remux.mp4"],
      some "downloads/video_42_100_remux.mp4"⟩ := by decide

/-- C1 counterexample: a 52 428 800-byte download (exactly `MAX_FILE_SIZE`,
within the limit but above 90 % of it) goes through the remux path; the
remux output is 52 428 801 bytes and is delivered without any size
re-check — a file larger than `MAX_FILE_SIZE` at the moment of delivery. -/
theorem delivery_size_counterexample :
    (handle_message MAX_FILE_SIZE "https://x.com/a/status/2" [] 0 5 60
      ⟨some ("downloads/video_42_100.mp4", ⟨[], none⟩), 52428800,
        false, false, 0, false, false, true, 52428801, true⟩ []).outcome
      = .delivered "downloads/video_42_100_remux.mp4" 52428801 true ∧
    MAX_FILE_SIZE < 52428801 := by
  constructor
  · decide
  · decide

lemma recompressFlow_delivered (maxFS : ℕ) (path : String) (isGif : Bool)
    (sc : Scenario) (disk₁ : Disk) (p : String) (s : ℕ) (g : Bool)
    (h : (recompressFlow maxFS path isGif sc disk₁).outcome
      = .delivered p s g) : s = sc.rcSize ∧ s ≤ maxFS := by
  unfold recompressFlow at h
  repeat' split at h
  all_goals (try exact Outcome.noConfusion h)
  all_goals simp only [Outcome.delivered.injEq] at h
  all_goals obtain ⟨h1, h2, h3⟩ := h
  all_goals omega

lemma remuxFlow_delivered (path : String) (dlSize : ℕ) (isGif : Bool)
    (sc : Scenario) (disk₁ : Disk) (p : String) (s : ℕ) (g : Bool)
    (h : (remuxFlow path dlSize isGif sc disk₁).outcome = .delivered p s g) :
    s = dlSize ∨ s = sc.rxSize := by
  unfold remuxFlow at h
  repeat' split at h
  all_goals (try exact Outcome.noConfusion h)
  all_goals simp only [Outcome.delivered.injEq] at h
  all_goals obtain ⟨h1, h2, h3⟩ := h
  all_goals first | (left; omega) | (right; omega)

/-- C1 amended: a file whose size exceeds `MAX_FILE_SIZE` after acquisition
is delivered only if recompression brings it within the limit; if the
recompressed output still exceeds the limit the request terminates with
the "too large" error and nothing is delivered.  Every delivered file is
within the limit *except* possibly the output of a successful near-limit
remux, whose re-measured size is not re-checked before delivery. -/
theorem delivery_size_amended (maxFS : ℕ) (url : String) (rlSt : List ℚ)
    (now : ℚ) (q : ℕ) (w : ℚ) (sc : Scenario) (disk₀ : Disk) :
    (∀ path info, sc.dl = some (path, info) → sc.dlSize > maxFS →
      sc.rcTimeout = false → sc.rcRetOk = true → sc.rcWrites = true →
      sc.rcSize > maxFS → is_twitter_url url = true →
      (is_allowed rlSt now q w).1 = true →
      (handle_message maxFS url rlSt now q w sc disk₀).outcome = .tooLarge) ∧
    (∀ p s g, (handle_message maxFS url rlSt now q w sc disk₀).outcome
        = .delivered p s g → s ≤ maxFS ∨ (s = sc.rxSize ∧ sc.dlSize ≤ maxFS)) := by
  constructor
  · intro path info hdl hbig hto hrok hwr hrsz hurl hallow
    simp [handle_message, hdl, hurl, hallow, hbig, recompressFlow, hto, hrok,
      hwr, hrsz, rcDisk, diskHas]
  · intro p s g h
    simp only [handle_message] at h
    repeat' split at h
    all_goals (try exact Outcome.noConfusion h)
    all_goals (first
      | (obtain ⟨h1, h2⟩ := recompressFlow_delivered _ _ _ _ _ _ _ _ h
         left; omega)
      | (rcases remuxFlow_delivered _ _ _ _ _ _ _ _ h with h' | h'
         · left; omega
         · right; exact ⟨h', by omega⟩)
      | (simp only [Outcome.delivered.injEq] at h
         obtain ⟨h1, h2, h3⟩ := h
         left; omega))

/-- Witness for the amended C1: a 60 000 000-byte download whose
recompression yields 60 000 001 bytes ends in the "too large" error, and a
1000-byte download is delivered within the limit. -/
theorem delivery_size_amended_witness :
    (handle_message MAX_FILE_SIZE "https://x.com/b/status/3" [] 0 5 60
      ⟨some ("downloads/video_7_200.mp4", ⟨[], none⟩), 60000000,
        false, true, 60000001, true, false, false, 0, false⟩ []).outcome
      = .tooLarge ∧
    ((1000 : ℕ) ≤ MAX_FILE_SIZE ∨ ((1000 : ℕ) = 0 ∧ (1000 : ℕ) ≤ MAX_FILE_SIZE)) :=
  ⟨(delivery_size_amended MAX_FILE_SIZE "https://x.com/b/status/3" [] 0 5 60
      ⟨some ("downloads/video_7_200.mp4", ⟨[], none⟩), 60000000,
        false, true, 60000001, true, false, false, 0, false⟩ []).1
      "downloads/video_7_200.mp4" ⟨[], none⟩ rfl (by decide) rfl rfl rfl
      (by decide) (by decide) (by decide),
    (delivery_size_amended MAX_FILE_SIZE "https://x.com/b/status/3" [] 0 5 60
      ⟨some ("downloads/video_7_200.mp4", ⟨[], none⟩), 1000,
        false, false, 0, false, false, false, 0, false⟩ []).2
      "downloads/video_7_200.mp4" 1000 true (by decide)⟩

lemma diskHas_diskRemove_self (d : Disk) (p : String) :
    diskHas (diskRemove d p) p = false := by
  induction d with
  | nil => rfl
  | cons e t ih =>
    by_cases h : e.1 = p
    · simpa [diskRemove, List.filter_cons, h, decide_not] using ih
    · simp [diskRemove, diskHas, List.filter_cons, h]

lemma diskHas_diskRemove_ne (d : Disk) {x p : String} (h : x ≠ p) :
    diskHas (diskRemove d p) x = diskHas d x := by
  induction d with
  | nil => rfl
  | cons e t ih =>
    simp only [diskRemove, diskHas] at ih ⊢
    rw [List.filter_cons]
    by_cases he : e.1 = p
    · rw [if_neg (by simp [he])]
      have hex : ¬ e.1 = x := by rw [he]; exact fun hh => h hh.symm
      rw [List.any_cons, decide_eq_false hex, Bool.false_or]
      exact ih
    · rw [if_pos (by simp [he])]
      rw [List.any_cons, List.any_cons, ih]

lemma diskHas_rcDisk (path : String) (sc : Scenario) (disk₁ : Disk)
    {x : String} (h : diskHas disk₁ x = true) :
    diskHas (rcDisk path sc disk₁) x = true := by
  unfold rcDisk
  split
  · simp [diskHas, List.any_cons] at h ⊢
    exact Or.inr h
  · exact h

lemma diskHas_rxDisk (path : String) (sc : Scenario) (disk₁ : Disk)
    {x : String} (h : diskHas disk₁ x = true) :
    diskHas (rxDisk path sc disk₁) x = true := by
  unfold rxDisk
  split
  · simp [diskHas, List.any_cons] at h ⊢
    exact Or.inr h
  · exact h

lemma recompressFlow_cleanup (maxFS : ℕ) (path : String) (isGif : Bool)
    (sc : Scenario) (disk₁ : Disk)
    (hne : compressedPath path ≠ path)
    (hpath : diskHas disk₁ path = true) :
    (recompressFlow maxFS path isGif sc disk₁).removed.Nodup ∧
    ∀ p, (recompressFlow maxFS path isGif sc disk₁).tracked = some p →
      diskHas (recompressFlow maxFS path isGif sc disk₁).disk p = false ∧
      (recompressFlow maxFS path isGif sc disk₁).removed.count p = 1 := by
  have hp2 : diskHas (rcDisk path sc disk₁) path = true :=
    diskHas_rcDisk path sc disk₁ hpath
  have hps : ¬ path = compressedPath path := fun hh => hne hh.symm
  unfold recompressFlow
  split
  · refine ⟨by simp [safeCleanup, hp2], ?_⟩
    intro p hp
    simp only [Option.some.injEq] at hp
    subst hp
    exact ⟨by simp [safeCleanup, hp2, diskHas_diskRemove_self],
      by simp [safeCleanup, hp2]⟩
  · split
    · refine ⟨by simp [safeCleanup, hp2], ?_⟩
      intro p hp
      simp only [Option.some.injEq] at hp
      subst hp
      exact ⟨by simp [safeCleanup, hp2, diskHas_diskRemove_self],
        by simp [safeCleanup, hp2]⟩
    · rename_i hcond
      push_neg at hcond
      have hout : diskHas (rcDisk path sc disk₁) (compressedPath path) = true := by
        simpa using hcond.2
      have hd3 : diskHas (diskRemove (rcDisk path sc disk₁) path)
          (compressedPath path) = true := by
        rw [diskHas_diskRemove_ne _ hne]; exact hout
      split
      · refine ⟨by simp [safeCleanup, hd3, hps], ?_⟩
        intro p hp
        simp only [Option.some.injEq] at hp
        subst hp
        refine ⟨by simp [safeCleanup, hd3, diskHas_diskRemove_self], ?_⟩
        simp [safeCleanup, hd3, List.count_cons, hps]
      · refine ⟨by simp [safeCleanup, hd3, hps], ?_⟩
        intro p hp
        simp only [Option.some.injEq] at hp
        subst hp
        refine ⟨by simp [safeCleanup, hd3, diskHas_diskRemove_self], ?_⟩
        simp [safeCleanup, hd3, List.count_cons, hps]

lemma remuxFlow_cleanup (path : String) (dlSize : ℕ) (isGif : Bool)
    (sc : Scenario) (disk₁ : Disk)
    (hne : remuxPath path ≠ path)
    (hpath : diskHas disk₁ path = true) :
    (remuxFlow path dlSize isGif sc disk₁).removed.Nodup ∧
    ∀ p, (remuxFlow path dlSize isGif sc disk₁).tracked = some p →
      diskHas (remuxFlow path dlSize isGif sc disk₁).disk p = false ∧
      (remuxFlow path dlSize isGif sc disk₁).removed.count p = 1 := by
  have hp2 : diskHas (rxDisk path sc disk₁) path = true :=
    diskHas_rxDisk path sc disk₁ hpath
  have hps : ¬ path = remuxPath path := fun hh => hne hh.symm
  unfold remuxFlow
  split
  · refine ⟨by simp [safeCleanup, hp2], ?_⟩
    intro p hp
    simp only [Option.some.injEq] at hp
    subst hp
    exact ⟨by simp [safeCleanup, hp2, diskHas_diskRemove_self],
      by simp [safeCleanup, hp2]⟩
  · split
    · refine ⟨by simp [safeCleanup, hp2], ?_⟩
      intro p hp
      simp only [Option.some.injEq] at hp
      subst hp
      exact ⟨by simp [safeCleanup, hp2, diskHas_diskRemove_self],
        by simp [safeCleanup, hp2]⟩
    · rename_i hres
      have hout : diskHas (rxDisk path sc disk₁) (remuxPath path) = true := by
        by_cases hc : sc.rxRetOk = true ∧
            diskHas (rxDisk path sc disk₁) (remuxPath path) = true
        · exact hc.2
        · exact absurd (by simp [remuxResult, hc]) hres
      have hd3 : diskHas (diskRemove (rxDisk path sc disk₁) path)
          (remuxPath path) = true := by
        rw [diskHas_diskRemove_ne _ hne]; exact hout
      refine ⟨by simp [safeCleanup, hd3, hps], ?_⟩
      intro p hp
      simp only [Option.some.injEq] at hp
      subst hp
      refine ⟨by simp [safeCleanup, hd3, diskHas_diskRemove_self], ?_⟩
      simp [safeCleanup, hd3, List.count_cons, hps]

/-- C8: on every exit path the tracked temporary file is absent from the
final disk and appears exactly once in the sequence of removals (no
double-deletion: the removal list has no duplicates), and cleanup of an
already-missing file is a no-op that raises nothing. -/
theorem cleanup_exactly_once (maxFS : ℕ) (url : String) (rlSt : List ℚ)
    (now : ℚ) (q : ℕ) (w : ℚ) (sc : Scenario) (disk₀ : Disk)
    (path : String) (info : VideoInfo)
    (hdl : sc.dl = some (path, info))
    (hrc : compressedPath path ≠ path)
    (hrx : remuxPath path ≠ path) :
    ((handle_message maxFS url rlSt now q w sc disk₀).removed.Nodup ∧
     ∀ p, (handle_message maxFS url rlSt now q w sc disk₀).tracked = some p →
       diskHas (handle_message maxFS url rlSt now q w sc disk₀).disk p = false ∧
       (handle_message maxFS url rlSt now q w sc disk₀).removed.count p = 1) ∧
    (∀ p d, diskHas d p = false → safeCleanup (some p) d [] = (d, [])) := by
  constructor
  · have hp1 : diskHas ((path, sc.dlSize) :: disk₀) path = true := by
      simp [diskHas]
    simp only [handle_message, hdl]
    split
    · simp
    · split
      · simp
      · split
        · exact recompressFlow_cleanup maxFS path (detect_gif info) sc
            ((path, sc.dlSize) :: disk₀) hrc hp1
        · split
          · exact remuxFlow_cleanup path sc.dlSize (detect_gif info) sc
              ((path, sc.dlSize) :: disk₀) hrx hp1
          · refine ⟨by simp [safeCleanup, hp1], ?_⟩
            intro p hp
            simp only [Option.some.injEq] at hp
            subst hp
            exact ⟨by simp [safeCleanup, hp1, diskHas_diskRemove_self],
              by simp [safeCleanup, hp1]⟩
  · intro p d hp
    simp [safeCleanup, hp]

/-- Witness for C8: a concrete direct-delivery request, and cleanup of a
file missing from an empty disk. -/
theorem cleanup_exactly_once_witness :
    ((handle_message MAX_FILE_SIZE "https://x.com/c/status/4" [] 0 5 60
        ⟨some ("downloads/video_9_300.mp4", ⟨[], none⟩), 1000,
          false, false, 0, false, false, false, 0, false⟩ []).removed.Nodup ∧
      ∀ p,
        (handle_message MAX_FILE_SIZE "https://x.com/c/status/4" [] 0 5 60
          ⟨some ("downloads/video_9_300.mp4", ⟨[], none⟩), 1000,
            false, false, 0, false, false, false, 0, false⟩ []).tracked
          = some p →
        diskHas (handle_message MAX_FILE_SIZE "https://x.com/c/status/4" [] 0 5 60
          ⟨some ("downloads/video_9_300.mp4", ⟨[], none⟩), 1000,
            false, false, 0, false, false, false, 0, false⟩ []).disk p
          = false ∧
        (handle_message MAX_FILE_SIZE "https://x.com/c/status/4" [] 0 5 60
          ⟨some ("downloads/video_9_300.mp4", ⟨[], none⟩), 1000,
            false, false, 0, false, false, false, 0, false⟩ []).removed.count p
          = 1) ∧
    (∀ p d, diskHas d p = false → safeCleanup (some p) d [] = (d, [])) :=
  cleanup_exactly_once MAX_FILE_SIZE "https://x.com/c/status/4" [] 0 5 60
    ⟨some ("downloads/video_9_300.mp4", ⟨[], none⟩), 1000,
      false, false, 0, false, false, false, 0, false⟩ []
    "downloads/video_9_300.mp4" ⟨[], none⟩ rfl (by decide) (by decide)

/-- C9 counterexample: the recompression attempt times out having written a
partial output; the request ends with the timeout error but the partial
`_compressed.mp4` file is left on disk — the claim's "any partial output
file produced by that attempt is removed" is false. -/
theorem timeout_partial_counterexample :
    (handle_message MAX_FILE_SIZE "https://x.com/d/status/5" [] 0 5 60
      ⟨some ("downloads/video_3_400.mp4", ⟨[], none⟩), 60000000,
        true, true, 12345, false, false, false, 0, false⟩ []).outcome
      = .timeoutMsg ∧
    diskHas (handle_message MAX_FILE_SIZE "https://x.com/d/status/5" [] 0 5 60
      ⟨some ("downloads/video_3_400.mp4", ⟨[], none⟩), 60000000,
        true, true, 12345, false, false, false, 0, false⟩ []).disk
      "downloads/video_3_400_compressed.mp4" = true := by
  constructor
  · decide
  · decide

/-- C9 amended: when the encoding invocation hits its per-attempt timeout
the attempt is treated as a failure (the request terminates with the
timeout error and nothing is delivered) and the tracked input file is
removed by the cleanup block, but any partial output written by the
timed-out attempt is *not* removed and remains on disk. -/
theorem timeout_partial_amended (maxFS : ℕ) (url : String) (rlSt : List ℚ)
    (now : ℚ) (q : ℕ) (w : ℚ) (sc : Scenario) (disk₀ : Disk)
    (path : String) (info : VideoInfo)
    (hdl : sc.dl = some (path, info)) (hbig : sc.dlSize > maxFS)
    (hto : sc.rcTimeout = true) (hwr : sc.rcWrites = true)
    (hne : compressedPath path ≠ path)
    (hurl : is_twitter_url url = true)
    (hallow : (is_allowed rlSt now q w).1 = true) :
    (handle_message maxFS url rlSt now q w sc disk₀).outcome = .timeoutMsg ∧
    diskHas (handle_message maxFS url rlSt now q w sc disk₀).disk
      (compressedPath path) = true ∧
    diskHas (handle_message maxFS url rlSt now q w sc disk₀).disk path
      = false := by
  have hred : handle_message maxFS url rlSt now q w sc disk₀ =
      ⟨.timeoutMsg,
        (safeCleanup (some path)
          (rcDisk path sc ((path, sc.dlSize) :: disk₀)) []).1,
        (safeCleanup (some path)
          (rcDisk path sc ((path, sc.dlSize) :: disk₀)) []).2,
        some path⟩ := by
    simp [handle_message, hdl, hurl, hallow, hbig, recompressFlow, hto]
  have hp1 : diskHas ((path, sc.dlSize) :: disk₀) path = true := by
    simp [diskHas]
  have hp2 : diskHas (rcDisk path sc ((path, sc.dlSize) :: disk₀)) path = true :=
    diskHas_rcDisk _ _ _ hp1
  have hout : diskHas (rcDisk path sc ((path, sc.dlSize) :: disk₀))
      (compressedPath path) = true := by
    unfold rcDisk
    rw [if_pos hwr]
    simp [diskHas]
  rw [hred]
  refine ⟨rfl, ?_, ?_⟩
  · show diskHas (safeCleanup (some path)
      (rcDisk path sc ((path, sc.dlSize) :: disk₀)) []).1
      (compressedPath path) = true
    simp only [safeCleanup, hp2, if_true]
    rw [diskHas_diskRemove_ne _ hne]
    exact hout
  · show diskHas (safeCleanup (some path)
      (rcDisk path sc ((path, sc.dlSize) :: disk₀)) []).1 path = false
    simp only [safeCleanup, hp2, if_true]
    exact diskHas_diskRemove_self _ _

/-- Witness for the amended C9 at a concrete timed-out recompression. -/
theorem timeout_partial_amended_witness :
    (handle_message MAX_FILE_SIZE "https://x.com/e/status/6" [] 0 5 60
      ⟨some ("downloads/video_5_500.mp4", ⟨[], none⟩), 55000000,
        true, true, 777, false, false, false, 0, false⟩ []).outcome
      = .timeoutMsg ∧
    diskHas (handle_message MAX_FILE_SIZE "https://x.com/e/status/6" [] 0 5 60
      ⟨some ("downloads/video_5_500.mp4", ⟨[], none⟩), 55000000,
        true, true, 777, false, false, false, 0, false⟩ []).disk
      (compressedPath "downloads/video_5_500.mp4") = true ∧
    diskHas (handle_message MAX_FILE_SIZE "https://x.com/e/status/6" [] 0 5 60
      ⟨some ("downloads/video_5_500.mp4", ⟨[], none⟩), 55000000,
        true, true, 777, false, false, false, 0, false⟩ []).disk
      "downloads/video_5_500.mp4" = false :=
  timeout_partial_amended MAX_FILE_SIZE "https://x.com/e/status/6" [] 0 5 60
    ⟨some ("downloads/video_5_500.mp4", ⟨[], none⟩), 55000000,
      true, true, 777, false, false, false, 0, false⟩ []
    "downloads/video_5_500.mp4" ⟨[], none⟩ rfl (by decide) rfl rfl
    (by decide) (by decide) (by decide)

lemma recompressFlow_delivered_gif (maxFS : ℕ) (path : String) (isGif : Bool)
    (sc : Scenario) (disk₁ : Disk) (p : String) (s : ℕ) (g : Bool)
    (h : (recompressFlow maxFS path isGif sc disk₁).outcome
      = .delivered p s g) : g = isGif := by
  unfold recompressFlow at h
  repeat' split at h
  all_goals (try exact Outcome.noConfusion h)
  all_goals simp only [Outcome.delivered.injEq] at h
  all_goals obtain ⟨h1, h2, h3⟩ := h
  all_goals exact h3.symm

lemma remuxFlow_delivered_gif (path : String) (dlSize : ℕ) (isGif : Bool)
    (sc : Scenario) (disk₁ : Disk) (p : String) (s : ℕ) (g : Bool)
    (h : (remuxFlow path dlSize isGif sc disk₁).outcome = .delivered p s g) :
    g = isGif := by
  unfold remuxFlow at h
  repeat' split at h
  all_goals (try exact Outcome.noConfusion h)
  all_goals simp only [Outcome.delivered.injEq] at h
  all_goals obtain ⟨h1, h2, h3⟩ := h
  all_goals exact h3.symm

/-- C10: a delivered file is sent as an animation exactly when `detect_gif`
holds of the extraction metadata, which is the case exactly when no reported
format has an audio codec and the duration — with a missing/null duration
treated as 0 — is at most 15 s; in particular an audio-less clip with
unknown duration is classified as an animation. -/
theorem gif_delivery (maxFS : ℕ) (url : String) (rlSt : List ℚ) (now : ℚ)
    (q : ℕ) (w : ℚ) (sc : Scenario) (disk₀ : Disk) (path : String)
    (info : VideoInfo) (hdl : sc.dl = some (path, info)) :
    (∀ p s g, (handle_message maxFS url rlSt now q w sc disk₀).outcome
        = .delivered p s g → g = detect_gif info) ∧
    (detect_gif info = true ↔
      ((∀ f ∈ info.formats, f.acodec = none ∨ f.acodec = some "none") ∧
        info.duration.getD 0 ≤ 15)) ∧
    (∀ fmts : List FormatInfo,
      (∀ f ∈ fmts, f.acodec = none ∨ f.acodec = some "none") →
      detect_gif ⟨fmts, none⟩ = true) := by
  refine ⟨?_, ?_, ?_⟩
  · intro p s g h
    simp only [handle_message, hdl] at h
    repeat' split at h
    all_goals (try exact Outcome.noConfusion h)
    all_goals first
      | exact recompressFlow_delivered_gif _ _ _ _ _ _ _ _ h
      | exact remuxFlow_delivered_gif _ _ _ _ _ _ _ _ h
      | (simp only [Outcome.delivered.injEq] at h
         exact h.2.2.symm)
  · simp only [detect_gif, Bool.and_eq_true, Bool.not_eq_true',
      List.any_eq_false, decide_eq_true_eq, decide_eq_false_iff_not]
    constructor
    · rintro ⟨h1, h2⟩
      refine ⟨?_, h2⟩
      intro f hf
      have := h1 f hf
      push_neg at this
      rcases Classical.em (f.acodec = none) with h | h
      · exact Or.inl h
      · exact Or.inr (this h)
    · rintro ⟨h1, h2⟩
      refine ⟨?_, h2⟩
      intro f hf
      intro hc
      rcases h1 f hf with h | h
      · exact (hc.1 h).elim
      · exact (hc.2 h).elim
  · intro fmts hf
    simp only [detect_gif, Bool.and_eq_true, Bool.not_eq_true',
      List.any_eq_false, decide_eq_true_eq, decide_eq_false_iff_not]
    constructor
    · intro f hf'
      intro hc
      rcases hf f hf' with h | h
      · exact (hc.1 h).elim
      · exact (hc.2 h).elim
    · norm_num

/-- Witness for C10 at a concrete request whose clip has an audio format. -/
theorem gif_delivery_witness :
    (∀ p s g,
      (handle_message MAX_FILE_SIZE "https://x.com/f/status/7" [] 0 5 60
        ⟨some ("downloads/video_8_800.mp4", ⟨[⟨some "aac"⟩], some 10⟩), 500,
          false, false, 0, false, false, false, 0, false⟩ []).outcome
        = .delivered p s g →
      g = detect_gif ⟨[⟨some "aac"⟩], some 10⟩) ∧
    (detect_gif ⟨[⟨some "aac"⟩], some 10⟩ = true ↔
      ((∀ f ∈ (⟨[⟨some "aac"⟩], some 10⟩ : VideoInfo).formats,
        f.acodec = none ∨ f.acodec = some "none") ∧
        (⟨[⟨some "aac"⟩], some 10⟩ : VideoInfo).duration.getD 0 ≤ 15)) ∧
    (∀ fmts : List FormatInfo,
      (∀ f ∈ fmts, f.acodec = none ∨ f.acodec = some "none") →
      detect_gif ⟨fmts, none⟩ = true) :=
  gif_delivery MAX_FILE_SIZE "https://x.com/f/status/7" [] 0 5 60
    ⟨some ("downloads/video_8_800.mp4", ⟨[⟨some "aac"⟩], some 10⟩), 500,
      false, false, 0, false, false, false, 0, false⟩ []
    "downloads/video_8_800.mp4" ⟨[⟨some "aac"⟩], some 10⟩ rfl

/-! ## Remediation scale filter (`recompress_video`, bot.py lines 253-263) -/

/-- The video filter string passed to the encoding backend by
`recompress_video` (bot.py line 261). -/
def recompressScaleFilter : String :=
  "scale='min(1280,iw)':'min(720,ih)':force_original_aspect_ratio=decrease"

/-- Round `a / b` to the nearest natural, halves rounded up (for positive
values this is the `AV_ROUND_NEAR_INF` rounding of ffmpeg's `av_rescale`). -/
def rnd (a b : ℕ) : ℕ := (2 * a + b) / (2 * b)

/-- The output dimensions the encoding backend computes for
`recompressScaleFilter` on a source of `iw × ih`, following the documented
semantics of ffmpeg's `scale` filter with
`force_original_aspect_ratio=decrease`: evaluate the size expressions
(`w0 = min(1280, iw)`, `h0 = min(720, ih)`), then decrease one dimension to
preserve the source aspect ratio (`tmp_w = av_rescale(h0, iw, ih)`,
`tmp_h = av_rescale(w0, ih, iw)`, keeping the minima).  Nothing in the
filter string forces the result to be even — there is no
`force_divisible_by=2` and no floor-to-even expression. -/
def scaleTarget (iw ih : ℕ) : ℕ × ℕ :=
  (min (rnd ((min 720 ih) * iw) ih) (min 1280 iw),
   min (rnd ((min 1280 iw) * ih) iw) (min 720 ih))

/-- Modelled from the spec: "compute via floor-to-even of source
dimensions" — the even-dimension scale target the spec requires, flooring
each capped dimension down to an even value. -/
def floorToEvenTarget (iw ih : ℕ) : ℕ × ℕ :=
  (2 * (min 1280 iw / 2), 2 * (min 720 ih / 2))

/-- C7: at the claim's own instance (1281, 721) the filter in the code
computes 1279 × 720 — an odd width, which the libx264 target codec rejects,
so the recompression invocation fails — whereas the floor-to-even
computation the spec requires yields the even 1280 × 720. -/
theorem scale_filter_odd_width :
    scaleTarget 1281 721 = (1279, 720) ∧ 1279 % 2 = 1 ∧
    floorToEvenTarget 1281 721 = (1280, 720) := by
  refine ⟨by decide, rfl, by decide⟩
